import Mathlib

/-!
# Shallow embedding of the HMLasso estimator (HMLasso.py)

Floating point values are modelled as real numbers.  A possibly missing
matrix entry (the NaN marker) is modelled as an element of `Option ℝ`,
with `none` standing for NaN; NaN propagation through the numpy
primitives used by the code (`mean`, `dot`, `divide`, `power`, comparison
against a tolerance) is modelled explicitly at each use site, following
IEEE semantics (any arithmetic on NaN yields NaN, every ordered
comparison with NaN is false, `power(NaN, 0) = 1`).

The two cvxpy solves are external black boxes: their outputs (variable
value and problem status) are passed to `fit` as oracle arguments.  The
output of the first solve is the value of a cvxpy variable declared with
`PSD = True`, which cvxpy represents symmetrically, so the oracle output
carries a symmetry proof.

The estimator instance is a record; `fit` returns the post-call record
together with the raised error, if any (Python mutates `self` in place,
so the field assignments made before an exception are kept).
-/

noncomputable section

namespace HMLasso

open scoped Classical

/-- `Z = np.nan_to_num(X)`: missing entries of the feature matrix are
replaced by `0` (HMLasso.py line 204). -/
def Z (n p : ℕ) (X : Fin n → Fin p → Option ℝ) (k : Fin n) (j : Fin p) : ℝ :=
  (X k j).getD 0

/-- `Y = (Z != 0).astype(int)` (line 205): the indicator actually built by
the code.  Note that it is `1` exactly where the original entry is present
AND nonzero: a present entry whose value is exactly `0` is indistinguishable
from a missing one after `nan_to_num`. -/
def Y (n p : ℕ) (X : Fin n → Fin p → Option ℝ) (k : Fin n) (j : Fin p) : ℕ :=
  if Z n p X k j ≠ 0 then 1 else 0

/-- `R = np.dot(Y.T, Y)` (line 206): the raw pairwise count matrix. -/
def Rraw (n p : ℕ) (X : Fin n → Fin p → Option ℝ) (i j : Fin p) : ℕ :=
  ∑ k, Y n p X k i * Y n p X k j

/-- The observation count matrix as the specification words it: entry
`(i, j)` is the number of rows in which both entry `i` and entry `j` are
non-missing.  (Spec-worded definition, for comparison with `Rraw`.) -/
def RrawSpec (n p : ℕ) (X : Fin n → Fin p → Option ℝ) (i j : Fin p) : ℕ :=
  (Finset.univ.filter fun k => (X k i).isSome = true ∧ (X k j).isSome = true).card

/-- `np.dot(Z.T, y)` (line 210): `Z` is real valued, but `y` may contain
NaN; a NaN anywhere in `y` makes every component NaN, because in IEEE
arithmetic `0 * NaN = NaN` and a sum containing NaN is NaN. -/
def dotZy (n p : ℕ) (X : Fin n → Fin p → Option ℝ) (y : Fin n → Option ℝ)
    (i : Fin p) : Option ℝ :=
  if ∀ k, (y k).isSome = true then some (∑ k, Z n p X k i * (y k).getD 0)
  else none

/-- `rho_pair = np.divide(np.dot(Z.T, y), R.diagonal(), out=np.zeros((p,)),
where=(R.diagonal()!=0))` (line 210): entries with a zero diagonal count
keep the preinitialised `0`. -/
def rho_pair (n p : ℕ) (X : Fin n → Fin p → Option ℝ) (y : Fin n → Option ℝ)
    (i : Fin p) : Option ℝ :=
  if Rraw n p X i i ≠ 0 then
    (dotZy n p X y i).map fun t => t / (Rraw n p X i i : ℝ)
  else some 0

/-- `S_pair = np.divide(np.dot(Z.T, Z), R, out=np.zeros((p, p)),
where=(R!=0))` (line 214).  `Z` is NaN-free, so the result is a plain real
matrix. -/
def S_pair (n p : ℕ) (X : Fin n → Fin p → Option ℝ) (i j : Fin p) : ℝ :=
  if Rraw n p X i j ≠ 0 then
    (∑ k, Z n p X k i * Z n p X k j) / (Rraw n p X i j : ℝ)
  else 0

/-- `R = R / self.n` (line 218).  When `n = 0` every entry of `Rraw` is `0`
and numpy produces `0 / 0 = NaN`, modelled as `none`. -/
def Rnorm (n p : ℕ) (X : Fin n → Fin p → Option ℝ) (i j : Fin p) : Option ℝ :=
  if n = 0 then none else some ((Rraw n p X i j : ℝ) / n)

/-- `np.power` on a possibly-NaN base: `power(NaN, 0) = 1` and
`power(NaN, a) = NaN` for `a ≠ 0`.  The bases fed to it by the code are
nonnegative, where `np.power` agrees with the real power `Real.rpow`. -/
def powOpt (o : Option ℝ) (a : ℝ) : Option ℝ :=
  match o with
  | some x => some (x ^ a)
  | none => if a = 0 then some 1 else none

/-- `R = np.power(R, self.alpha)` (line 222): the final confidence weight
matrix. -/
def Rweights (n p : ℕ) (X : Fin n → Fin p → Option ℝ) (alpha : ℝ)
    (i j : Fin p) : Option ℝ :=
  powOpt (Rnorm n p X i j) alpha

/-- `X[:, j].mean()` as used by `__verify_centering__` (line 195): the mean
is NaN (`none`) when the column contains a missing entry or when `n = 0`
(numpy: mean of an empty slice is NaN). -/
def colMean (n p : ℕ) (X : Fin n → Fin p → Option ℝ) (j : Fin p) : Option ℝ :=
  if n ≠ 0 ∧ ∀ k, (X k j).isSome = true then some ((∑ k, Z n p X k j) / n)
  else none

/-- Column `j` triggers the centering exception of `__verify_centering__`
(line 196): its mean is an actual number of absolute value above the
tolerance `1e-8`.  A NaN mean compares false (`abs(nan) > tol` is false in
IEEE), so a column containing a missing entry never triggers. -/
def centerViol (n p : ℕ) (X : Fin n → Fin p → Option ℝ) (j : Fin p) : Prop :=
  ∃ m : ℝ, colMean n p X j = some m ∧ 1e-8 < |m|

/-- The `for col in range(p)` loop of `__verify_centering__` (lines
194-197): return the first offending column, if any. -/
def findViol (n p : ℕ) (X : Fin n → Fin p → Option ℝ) :
    List (Fin p) → Option (Fin p)
  | [] => none
  | j :: rest => if centerViol n p X j then some j else findViol n p X rest

/-- `self.__verify_centering__(X)` (line 167): scans columns `0, …, p-1`
in order. -/
def verifyCentering (n p : ℕ) (X : Fin n → Fin p → Option ℝ) : Option (Fin p) :=
  findViol n p X (List.finRange p)

/-- The status reported by `prob.status` after a cvxpy solve. -/
inductive SolveStatus
  | optimal
  | inaccurate
  | infeasible
deriving DecidableEq

/-- Output of the external SDP solve in `__solve_first_problem__` (lines
239-255): the value of the `PSD = True` cvxpy variable `Sigma` (symmetric
by construction of the variable) and the problem status. -/
structure CovOut (p : ℕ) where
  value : Matrix (Fin p) (Fin p) ℝ
  symm : value.IsHermitian
  status : SolveStatus

/-- Output of the external convex solve in `__solve_second_problem__`
(lines 268-284): the value of the cvxpy variable `beta` and the status. -/
structure CoefOut (p : ℕ) where
  value : Fin p → ℝ
  status : SolveStatus

/-- The module-global `ERRORS_HANDLING` flag (line 27), default `"raise"`. -/
inductive ErrMode
  | propagate
  | ignore
deriving DecidableEq

/-- The exceptions `fit` can raise itself: the `AssertionError` of line 163
and the centering `Exception` of line 197 (carrying the offending column). -/
inductive FitError
  | shapeMismatch
  | notCentered (col : ℕ)
deriving DecidableEq

/-- The `AssertionError`s `predict` can raise (lines 141-143), plus a
marker for a `beta_opt` inconsistent with the checked dimension (where the
Python `np.dot` would fail; unreachable from `__init__`/`fit`). -/
inductive PredictError
  | notFitted
  | wrongDim
  | hasNaN
  | internal
deriving DecidableEq

/-- The instance attributes assigned by `__init__` (lines 113-127).
Fit-derived artifacts are `none` before a successful assignment; their
dimension is packaged with them. -/
structure State where
  mu : ℝ
  alpha : ℝ
  verbose : Bool
  n : Option ℕ
  p : Option ℕ
  S_pair : Option ((q : ℕ) × Matrix (Fin q) (Fin q) ℝ)
  rho_pair : Option ((q : ℕ) × (Fin q → Option ℝ))
  R : Option ((q : ℕ) × (Fin q → Fin q → Option ℝ))
  Sigma_opt : Option ((q : ℕ) × Matrix (Fin q) (Fin q) ℝ)
  beta_opt : Option ((q : ℕ) × (Fin q → ℝ))
  isFirstProblemSolved : Bool
  isSecondProblemSolved : Bool
  isFitted : Bool

/-- `__init__(mu, alpha, fit_intercept, verbose)` (lines 104-127), after
its type/positivity assertions.  `fit_intercept` is type-checked by the
assertions (its `Bool` type here) but never stored: the constructor body
assigns only `mu`, `alpha` and `verbose`, and no other method mentions it. -/
def init (mu alpha : ℝ) (fit_intercept verbose : Bool) : State :=
  { mu := mu, alpha := alpha, verbose := verbose,
    n := none, p := none, S_pair := none, rho_pair := none, R := none,
    Sigma_opt := none, beta_opt := none,
    isFirstProblemSolved := false, isSecondProblemSolved := false,
    isFitted := false }

/-- `min(np.linalg.eig(Sigma_opt)[0])` (lines 173-174) for the symmetric
real solver output: the smallest eigenvalue. -/
def minEig {p : ℕ} (A : Matrix (Fin p) (Fin p) ℝ) (hA : A.IsHermitian) : ℝ :=
  ⨅ i, hA.eigenvalues i

/-- Lines 173-181 of `fit`: if the minimum eigenvalue of the solver output
is negative, subtract `min_eigenvalue * np.eye(p, p)`; then take
`np.real`.  A real symmetric matrix has a real eigendecomposition, so in
this model the `np.real` step is the identity. -/
def psdRepair {p : ℕ} (A : Matrix (Fin p) (Fin p) ℝ) (hA : A.IsHermitian) :
    Matrix (Fin p) (Fin p) ℝ :=
  if minEig A hA < 0 then A - minEig A hA • (1 : Matrix (Fin p) (Fin p) ℝ)
  else A

/-- `fit(X, y)` (lines 147-191).  `X` is `nX × p` with NaN as `none`; `y`
has length `nY` (the code asserts `X.shape[0] == y.shape[0]`; that `X` and
`y` are arrays and `y` is one-dimensional is enforced by the types).  `o1`
and `o2` are the outputs of the two external solves.  `eh` is the
module-global `ERRORS_HANDLING` flag: when it is `ignore`, line 184 wraps
`Sigma_opt` in `cp.psd_wrap`, an annotation telling the external solver to
skip its PSD check; it does not change the numerical matrix, so it is not
reflected in the stored state here.  The status fields of `o1` and `o2`
are never inspected: the code only prints `prob.status` when verbose.
Returns the post-call state and the raised error, if any. -/
def fit (eh : ErrMode) (s : State) (nX nY p : ℕ)
    (X : Fin nX → Fin p → Option ℝ) (y : Fin nY → Option ℝ)
    (o1 : CovOut p) (o2 : CoefOut p) : State × Option FitError :=
  if h : nX = nY then
    -- line 166: self.n, self.p = X.shape  (before the centering check)
    let s1 : State := { s with n := some nX, p := some p }
    match verifyCentering nX p X with
    | some j => (s1, some (FitError.notCentered j.val))
    | none =>
      -- line 168: self.S_pair, self.rho_pair, self.R = self.__impute_params__(X, y)
      let y' : Fin nX → Option ℝ := fun k => y (Fin.cast h k)
      let s2 : State := { s1 with
        S_pair := some ⟨p, Matrix.of (S_pair nX p X)⟩,
        rho_pair := some ⟨p, rho_pair nX p X y'⟩,
        R := some ⟨p, Rweights nX p X s.alpha⟩ }
      -- line 169: self.Sigma_opt = self.__solve_first_problem__()
      let s3 : State := { s2 with
        isFirstProblemSolved := true,
        Sigma_opt := some ⟨p, o1.value⟩ }
      -- lines 173-181: eigenvalue repair and np.real
      let s4 : State := { s3 with
        Sigma_opt := some ⟨p, psdRepair o1.value o1.symm⟩ }
      -- line 186: self.beta_opt = self.__solve_second_problem__()
      let s5 : State := { s4 with
        isSecondProblemSolved := true,
        beta_opt := some ⟨p, o2.value⟩ }
      -- line 188: self.isFitted = True
      ({ s5 with isFitted := true }, none)
  else (s, some FitError.shapeMismatch)

/-- `predict(X)` (lines 129-145): assert fitted, assert the column count
matches `self.p`, assert no NaN, then return `np.dot(X, self.beta_opt)`.
It reads the instance and returns only the prediction: no field is
assigned. -/
def predict (s : State) (m pX : ℕ) (Xnew : Fin m → Fin pX → Option ℝ) :
    Except PredictError (Fin m → ℝ) :=
  if s.isFitted = true then
    if s.p = some pX then
      if ∀ i j, (Xnew i j).isSome = true then
        match s.beta_opt with
        | some ⟨q, b⟩ =>
          if h : q = pX then
            Except.ok fun i => ∑ j, (Xnew i j).getD 0 * b (Fin.cast h.symm j)
          else Except.error PredictError.internal
        | none => Except.error PredictError.internal
      else Except.error PredictError.hasNaN
    else Except.error PredictError.wrongDim
  else Except.error PredictError.notFitted

/-! Concrete inputs used to evaluate the embedding at specific points. -/

/-- A 3×1 feature matrix with no missing entry whose column is exactly
mean-centered (mean `(0 + 1 + (-1))/3 = 0`) and contains the value `0`. -/
def X3 : Fin 3 → Fin 1 → Option ℝ := ![![some 0], ![some 1], ![some (-1)]]

/-- A 2×1 feature matrix with no missing entry, exactly mean-centered, with
no zero entry. -/
def X2 : Fin 2 → Fin 1 → Option ℝ := ![![some 1], ![some (-1)]]

/-- A 1×1 feature matrix whose column mean is `1`, violating the centering
tolerance. -/
def X1 : Fin 1 → Fin 1 → Option ℝ := ![![some 1]]

/-- A 0×1 feature matrix (no observations). -/
def X0 : Fin 0 → Fin 1 → Option ℝ := fun k _ => k.elim0

/-- A 1×1 feature matrix whose only entry is missing. -/
def XN : Fin 1 → Fin 1 → Option ℝ := ![![none]]

/-- A length-2 label vector whose first entry is missing (NaN). -/
def yNaN : Fin 2 → Option ℝ := ![none, some 0]

/-- A length-2 label vector with no missing entry. -/
def y2 : Fin 2 → Option ℝ := ![some 1, some 0]

/-- An arbitrary fitted instance state with `p = 1` and coefficient
vector `(2)`. -/
def fittedS : State :=
  { mu := 1, alpha := 1, verbose := false, n := some 1, p := some 1,
    S_pair := none, rho_pair := none, R := none, Sigma_opt := none,
    beta_opt := some ⟨1, fun _ => 2⟩,
    isFirstProblemSolved := true, isSecondProblemSolved := true,
    isFitted := true }

/-! ## Helper lemmas -/

theorem Rraw_le (n p : ℕ) (X : Fin n → Fin p → Option ℝ) (i j : Fin p) :
    Rraw n p X i j ≤ n := by
  unfold Rraw
  calc ∑ k, Y n p X k i * Y n p X k j ≤ ∑ _k : Fin n, 1 := by
        refine Finset.sum_le_sum fun k _ => ?_
        unfold Y
        split_ifs <;> simp
    _ = n := by simp

theorem Rraw_X3 : Rraw 3 1 X3 0 0 = 2 := by
  unfold Rraw Y Z X3
  rw [Fin.sum_univ_three]
  norm_num

theorem verifyCentering_one_none (n : ℕ) (X : Fin n → Fin 1 → Option ℝ)
    (h : ¬ centerViol n 1 X 0) : verifyCentering n 1 X = none := by
  unfold verifyCentering
  rw [show List.finRange 1 = [0] from rfl]
  simp [findViol, h]

theorem verifyCentering_one_viol (n : ℕ) (X : Fin n → Fin 1 → Option ℝ)
    (h : centerViol n 1 X 0) : verifyCentering n 1 X = some 0 := by
  unfold verifyCentering
  rw [show List.finRange 1 = [0] from rfl]
  simp [findViol, h]

theorem colMean_X2 : colMean 2 1 X2 0 = some 0 := by
  unfold colMean Z X2
  rw [if_pos ⟨by omega, by decide⟩, Fin.sum_univ_two]
  norm_num

theorem cent_X2 : verifyCentering 2 1 X2 = none := by
  apply verifyCentering_one_none
  rintro ⟨m, hm, habs⟩
  rw [colMean_X2] at hm
  obtain rfl : (0 : ℝ) = m := Option.some.inj hm
  norm_num at habs

theorem Rraw_X2 : Rraw 2 1 X2 0 0 = 2 := by
  unfold Rraw Y Z X2
  rw [Fin.sum_univ_two]
  norm_num

/-! ## Claim theorems -/

/-- **C1** (corrected): the count matrix built at lines 204-206 satisfies
`R_raw[i,j] =` the number of rows in which the entries in columns `i` and
`j` are both present *and nonzero*; the indicator `(np.nan_to_num(X) != 0)`
is `1` exactly where the entry is non-NaN and different from `0`, not (as
the claim states) wherever the entry is non-NaN. -/
theorem Rraw_counts_present_nonzero (n p : ℕ) (X : Fin n → Fin p → Option ℝ)
    (i j : Fin p) :
    Rraw n p X i j =
      (Finset.univ.filter fun k =>
        (X k i).getD 0 ≠ 0 ∧ (X k j).getD 0 ≠ 0).card := by
  unfold Rraw Y Z
  rw [Finset.card_filter]
  refine Finset.sum_congr rfl fun k _ => ?_
  by_cases h1 : (X k i).getD 0 ≠ 0 <;> by_cases h2 : (X k j).getD 0 ≠ 0 <;>
    simp [h1, h2]

/-- **C1 counterexample**: on the fully observed, mean-centered matrix `X3`
(whose first row holds the present value `0`), the code computes
`R_raw[0,0] = 2`, while the number of rows where feature `0` is non-missing
is `3`. -/
theorem Rraw_presence_cex :
    Rraw 3 1 X3 0 0 = 2 ∧ RrawSpec 3 1 X3 0 0 = 3 ∧
    Rraw 3 1 X3 0 0 ≠ RrawSpec 3 1 X3 0 0 := by
  have h1 : Rraw 3 1 X3 0 0 = 2 := Rraw_X3
  have h2 : RrawSpec 3 1 X3 0 0 = 3 := by
    unfold RrawSpec
    rw [Finset.filter_true_of_mem, Finset.card_univ, Fintype.card_fin]
    intro k _
    fin_cases k <;> simp [X3]
  exact ⟨h1, h2, by rw [h1, h2]; omega⟩

/-- **C4** (corrected): with every entry of `X` present *and nonzero* (and
`y` NaN-free), the pairwise estimates coincide with the complete-data
estimates `S_pair = (1/n)·XᵀX` and `rho_pair = (1/n)·Xᵀy`.  Presence alone
does not suffice, because the code counts present zero entries as missing:
see the counterexample. -/
theorem impute_complete_data (n p : ℕ) (X : Fin n → Fin p → Option ℝ)
    (y : Fin n → Option ℝ) (hn : 1 ≤ n)
    (hX : ∀ k j, (X k j).getD 0 ≠ 0) (hy : ∀ k, (y k).isSome = true)
    (i j : Fin p) :
    S_pair n p X i j =
      (1 / (n : ℝ)) * ∑ k, (X k i).getD 0 * (X k j).getD 0 ∧
    rho_pair n p X y i =
      some ((1 / (n : ℝ)) * ∑ k, (X k i).getD 0 * (y k).getD 0) := by
  have hY : ∀ (k : Fin n) (l : Fin p), Y n p X k l = 1 := by
    intro k l; unfold Y Z; rw [if_pos (hX k l)]
  have hR : ∀ l l' : Fin p, Rraw n p X l l' = n := by
    intro l l'; unfold Rraw; simp [hY]
  constructor
  · unfold S_pair
    rw [if_pos (by rw [hR]; omega), hR]
    unfold Z
    rw [one_div, inv_mul_eq_div]
  · unfold rho_pair
    rw [if_pos (by rw [hR]; omega), hR]
    unfold dotZy
    rw [if_pos hy]
    unfold Z
    rw [Option.map_some', one_div, inv_mul_eq_div]

/-- Witness for the corrected C4, at `n = p = 1`, `X = (1)`, `y = (2)`. -/
theorem impute_complete_data_witness :
    S_pair 1 1 X1 0 0 =
      (1 / ((1:ℕ) : ℝ)) * ∑ k : Fin 1, (X1 k 0).getD 0 * (X1 k 0).getD 0 ∧
    rho_pair 1 1 X1 ![some 2] 0 =
      some ((1 / ((1:ℕ) : ℝ)) *
        ∑ k : Fin 1, (X1 k 0).getD 0 * ((![some 2] : Fin 1 → Option ℝ) k).getD 0) :=
  impute_complete_data 1 1 X1 ![some 2] (by simp)
    (fun k j => by fin_cases k; fin_cases j; simp [X1])
    (fun k => by fin_cases k; simp) 0 0

/-- **C4 counterexample**: `X3` contains no missing entry, yet
`S_pair[0,0] = 1` while the complete-data value `(1/3)·(XᵀX)[0,0]` is
`2/3`: the claimed reduction fails on a present zero entry. -/
theorem impute_complete_data_cex :
    (∀ (k : Fin 3) (j : Fin 1), (X3 k j).isSome = true) ∧
    S_pair 3 1 X3 0 0 = 1 ∧
    (1 / (3 : ℝ)) * (∑ k : Fin 3, (X3 k 0).getD 0 * (X3 k 0).getD 0) = 2 / 3 := by
  refine ⟨fun k j => by fin_cases k <;> fin_cases j <;> simp [X3], ?_, ?_⟩
  · unfold S_pair Z
    rw [if_pos (by rw [Rraw_X3]; omega), Rraw_X3]
    unfold X3
    rw [Fin.sum_univ_three]
    norm_num
  · unfold X3
    rw [Fin.sum_univ_three]
    norm_num

/-- **C5** (corrected): both `np.divide` calls are guarded — a zero
diagonal count gives `rho_pair[i] = 0` and a zero overlap count gives
`S_pair[i,j] = 0` — and `S_pair` is always NaN-free by construction;
`rho_pair` is NaN-free provided `y` contains no NaN.  The claim's "no NaN
is propagated into rho_pair for every input accepted by fit" is too
strong, because fit accepts label vectors containing NaN (it never checks
them): see the counterexample. -/
theorem impute_division_guards (n p : ℕ) (X : Fin n → Fin p → Option ℝ)
    (y : Fin n → Option ℝ) :
    (∀ i, Rraw n p X i i = 0 → rho_pair n p X y i = some 0) ∧
    (∀ i j, Rraw n p X i j = 0 → S_pair n p X i j = 0) ∧
    ((∀ k, (y k).isSome = true) → ∀ i, (rho_pair n p X y i).isSome = true) := by
  refine ⟨fun i h => ?_, fun i j h => ?_, fun hy i => ?_⟩
  · unfold rho_pair
    rw [if_neg (by simp [h])]
  · unfold S_pair
    rw [if_neg (by simp [h])]
  · unfold rho_pair dotZy
    by_cases h : Rraw n p X i i ≠ 0
    · rw [if_pos h, if_pos hy]
      simp
    · rw [if_neg h]
      simp

/-- Witness for the corrected C5 at `n = p = 1` with the single entry of
`X` missing (so `R_raw[0,0] = 0`) and `y = (5)`. -/
theorem impute_division_guards_witness :
    rho_pair 1 1 XN ![some 5] 0 = some 0 ∧ S_pair 1 1 XN 0 0 = 0 ∧
    (rho_pair 1 1 XN ![some 5] 0).isSome = true := by
  obtain ⟨h1, h2, h3⟩ := impute_division_guards 1 1 XN ![some 5]
  have hz : Rraw 1 1 XN 0 0 = 0 := by
    simp [Rraw, Y, Z, XN]
  exact ⟨h1 0 hz, h2 0 0 hz, h3 (fun k => by fin_cases k <;> simp) 0⟩

/-- **C5 counterexample**: `(X2, yNaN)` is accepted by fit (`X2` is
centered and the shapes match; fit never checks `y` for NaN), the overlap
count `R_raw[0,0] = 2` is nonzero, and the NaN in `y` propagates into
`rho_pair[0]`. -/
theorem rho_pair_nan_cex :
    verifyCentering 2 1 X2 = none ∧ rho_pair 2 1 X2 yNaN 0 = none := by
  refine ⟨cent_X2, ?_⟩
  unfold rho_pair
  rw [if_pos (by rw [Rraw_X2]; omega)]
  unfold dotZy
  rw [if_neg fun hall => by have := hall 0; simp [yNaN] at this]
  rfl

/-- **C6** (corrected, requires `n ≥ 1`): every entry of `R_raw/n` is a
real number in `[0,1]`, and after the elementwise `alpha ≥ 0` power every
entry of `R` is still in `[0,1]`.  For `n = 0` — an input that fit accepts
— the entries are NaN instead: see the counterexample. -/
theorem Rweights_unit_interval (n p : ℕ) (X : Fin n → Fin p → Option ℝ)
    (alpha : ℝ) (hn : 1 ≤ n) (ha : 0 ≤ alpha) (i j : Fin p) :
    ∃ r : ℝ, Rnorm n p X i j = some r ∧ 0 ≤ r ∧ r ≤ 1 ∧
      Rweights n p X alpha i j = some (r ^ alpha) ∧
      0 ≤ r ^ alpha ∧ r ^ alpha ≤ 1 := by
  have hn0 : (0:ℝ) < n := by exact_mod_cast hn
  have hr1 : (Rraw n p X i j : ℝ) / n ≤ 1 := by
    rw [div_le_one hn0]
    exact_mod_cast Rraw_le n p X i j
  refine ⟨(Rraw n p X i j : ℝ) / n, ?_, by positivity, hr1, ?_, ?_, ?_⟩
  · unfold Rnorm
    rw [if_neg (by omega)]
  · unfold Rweights Rnorm
    rw [if_neg (show ¬ n = 0 by omega)]
    rfl
  · exact Real.rpow_nonneg (by positivity) alpha
  · exact Real.rpow_le_one (by positivity) hr1 ha

/-- Witness for the corrected C6 at `n = p = 1`, `alpha = 1`, with the
single entry missing. -/
theorem Rweights_unit_interval_witness :
    ∃ r : ℝ, Rnorm 1 1 XN 0 0 = some r ∧ 0 ≤ r ∧ r ≤ 1 ∧
      Rweights 1 1 XN 1 0 0 = some (r ^ (1:ℝ)) ∧
      0 ≤ r ^ (1:ℝ) ∧ r ^ (1:ℝ) ≤ 1 :=
  Rweights_unit_interval 1 1 XN 1 (by simp) (by simp) 0 0

/-- **C6 counterexample**: the empty input `X0` (`n = 0`, `p = 1`) is
accepted by fit — numpy's mean of an empty column is NaN, which compares
false against the tolerance — yet with `alpha = 1` the confidence weight
entry `(R_raw/0)^1` is NaN (`0/0`), not a real number in `[0,1]`. -/
theorem Rweights_nan_cex :
    verifyCentering 0 1 X0 = none ∧ Rweights 0 1 X0 1 0 0 = none ∧
    ∀ r : ℝ, Rweights 0 1 X0 1 0 0 ≠ some r := by
  have h : Rweights 0 1 X0 1 0 0 = none := by
    simp [Rweights, Rnorm, powOpt]
  refine ⟨?_, h, fun r => by rw [h]; simp⟩
  apply verifyCentering_one_none
  rintro ⟨m, hm, _⟩
  unfold colMean at hm
  rw [if_neg (by simp)] at hm
  exact Option.noConfusion hm

theorem minEig_le {p : ℕ} (A : Matrix (Fin p) (Fin p) ℝ)
    (hA : A.IsHermitian) (i : Fin p) : minEig A hA ≤ hA.eigenvalues i :=
  ciInf_le (Set.finite_range _).bddBelow i

theorem psdRepair_of_posSemidef {p : ℕ} (A : Matrix (Fin p) (Fin p) ℝ)
    (hA : A.IsHermitian) (hP : A.PosSemidef) : psdRepair A hA = A := by
  unfold psdRepair
  have h : ¬ minEig A hA < 0 :=
    not_lt.mpr (Real.iInf_nonneg fun i => hP.eigenvalues_nonneg i)
  rw [if_neg h]

/-- **C2** (confirmed): for any real symmetric solver output, the repaired
matrix of lines 173-181 is symmetric positive semidefinite, so all its
eigenvalues are `≥ 0 ≥ -1e-6` (the claim's tolerance).  When the minimum
eigenvalue is negative the code subtracts it times the identity; a real
symmetric matrix has a real eigendecomposition, so discarding imaginary
parts (`np.real`, line 181) changes nothing. -/
theorem psdRepair_psd {p : ℕ} (A : Matrix (Fin p) (Fin p) ℝ)
    (hA : A.IsHermitian) :
    (psdRepair A hA).PosSemidef ∧
    ∀ (h2 : (psdRepair A hA).IsHermitian) (i : Fin p),
      -(1e-6) ≤ h2.eigenvalues i := by
  have hmin : ∀ i, minEig A hA ≤ hA.eigenvalues i := minEig_le A hA
  have hpsd : (psdRepair A hA).PosSemidef := by
    unfold psdRepair
    by_cases hneg : minEig A hA < 0
    · rw [if_pos hneg]
      have hUU : (hA.eigenvectorUnitary : Matrix (Fin p) (Fin p) ℝ) *
          star (hA.eigenvectorUnitary : Matrix (Fin p) (Fin p) ℝ) = 1 :=
        Matrix.mem_unitaryGroup_iff.mp hA.eigenvectorUnitary.2
      have hd : Matrix.diagonal (RCLike.ofReal ∘ hA.eigenvalues) -
          minEig A hA • (1 : Matrix (Fin p) (Fin p) ℝ) =
          Matrix.diagonal (fun i => hA.eigenvalues i - minEig A hA) := by
        ext i j
        rcases eq_or_ne i j with rfl | hij
        · simp [Matrix.diagonal_apply_eq, Matrix.one_apply_eq,
            RCLike.ofReal_real_eq_id]
        · simp [Matrix.diagonal_apply_ne _ hij, Matrix.one_apply_ne hij]
      have key : A - minEig A hA • (1 : Matrix (Fin p) (Fin p) ℝ) =
          (hA.eigenvectorUnitary : Matrix (Fin p) (Fin p) ℝ) *
            Matrix.diagonal (fun i => hA.eigenvalues i - minEig A hA) *
            star (hA.eigenvectorUnitary : Matrix (Fin p) (Fin p) ℝ) := by
        rw [← hd, Matrix.mul_sub, Matrix.sub_mul, ← hA.spectral_theorem,
          Matrix.mul_smul, mul_one, Matrix.smul_mul, hUU]
      rw [key, Matrix.star_eq_conjTranspose]
      exact (Matrix.posSemidef_diagonal_iff.mpr fun i =>
        sub_nonneg.mpr (hmin i)).mul_mul_conjTranspose_same _
    · rw [if_neg hneg]
      exact hA.posSemidef_of_eigenvalues_nonneg fun i =>
        le_trans (not_lt.mp hneg) (hmin i)
  refine ⟨hpsd, fun h2 i => ?_⟩
  calc (-(1e-6) : ℝ) ≤ 0 := by norm_num
    _ ≤ h2.eigenvalues i := hpsd.eigenvalues_nonneg i

/-- Witness for C2 at the concrete symmetric input `1` (p = 1). -/
theorem psdRepair_psd_witness :
    (psdRepair (1 : Matrix (Fin 1) (Fin 1) ℝ) Matrix.isHermitian_one).PosSemidef ∧
    ∀ (h2 : (psdRepair (1 : Matrix (Fin 1) (Fin 1) ℝ)
        Matrix.isHermitian_one).IsHermitian) (i : Fin 1),
      -(1e-6) ≤ h2.eigenvalues i :=
  psdRepair_psd 1 Matrix.isHermitian_one

theorem colMean_X1 : colMean 1 1 X1 0 = some 1 := by
  unfold colMean Z X1
  rw [if_pos ⟨by omega, by decide⟩, Fin.sum_univ_one]
  norm_num

theorem cent_X1 : verifyCentering 1 1 X1 = some 0 :=
  verifyCentering_one_viol 1 X1 ⟨1, colMean_X1, by rw [abs_one]; norm_num⟩

theorem predict_ne_notFitted (s : State) (m pX : ℕ)
    (Xnew : Fin m → Fin pX → Option ℝ) (h : s.isFitted = true) :
    predict s m pX Xnew ≠ Except.error PredictError.notFitted := by
  unfold predict
  rw [if_pos h]
  split_ifs with h1 h2
  · cases hb : s.beta_opt with
    | none => simp
    | some qb =>
      obtain ⟨q, b⟩ := qb
      by_cases hq : q = pX <;> simp [hq]
  · simp
  · simp

/-- **C7** (confirmed): for a fitted state with coefficient vector `b` of
the fit-time dimension and a NaN-free input of that dimension, `predict`
returns exactly the matrix-vector product `X · beta_opt`; `predict` only
reads the instance (its result type carries no state), so it mutates
nothing. -/
theorem predict_matvec (s : State) (m q : ℕ) (b : Fin q → ℝ)
    (Xnew : Fin m → Fin q → Option ℝ)
    (hfit : s.isFitted = true) (hp : s.p = some q)
    (hb : s.beta_opt = some ⟨q, b⟩)
    (hX : ∀ i j, (Xnew i j).isSome = true) :
    predict s m q Xnew = Except.ok fun i => ∑ j, (Xnew i j).getD 0 * b j := by
  unfold predict
  rw [if_pos hfit, if_pos hp, if_pos hX, hb]
  exact dif_pos rfl

/-- Witness for C7: the concrete fitted state `fittedS` (coefficient `(2)`)
on input `(3)` predicts `3 · 2`. -/
theorem predict_matvec_witness :
    predict fittedS 1 1 ![![some 3]] =
      Except.ok fun i => ∑ j : Fin 1,
        ((![![some 3]] : Fin 1 → Fin 1 → Option ℝ) i j).getD 0 *
          (fun _ : Fin 1 => (2:ℝ)) j :=
  predict_matvec fittedS 1 1 (fun _ => 2) ![![some 3]] rfl rfl rfl
    (fun i j => by fin_cases i <;> fin_cases j <;> simp)

/-- **C9** (confirmed): `fit_intercept` is type-checked by the constructor
but never stored (the constructor assigns only `mu`, `alpha`, `verbose`)
and never consulted: two runs that differ only in it have identical
post-fit state — including `S_pair`, `rho_pair`, `R`, `Sigma_opt`,
`beta_opt` — and identical predictions. -/
theorem fit_intercept_unused (mu alpha : ℝ) (b1 b2 v : Bool) (eh : ErrMode)
    (nX nY p : ℕ) (X : Fin nX → Fin p → Option ℝ) (y : Fin nY → Option ℝ)
    (o1 : CovOut p) (o2 : CoefOut p) (m pX : ℕ)
    (Xnew : Fin m → Fin pX → Option ℝ) :
    fit eh (init mu alpha b1 v) nX nY p X y o1 o2 =
      fit eh (init mu alpha b2 v) nX nY p X y o1 o2 ∧
    predict (fit eh (init mu alpha b1 v) nX nY p X y o1 o2).1 m pX Xnew =
      predict (fit eh (init mu alpha b2 v) nX nY p X y o1 o2).1 m pX Xnew :=
  ⟨rfl, rfl⟩

/-- **C10** (confirmed): `isFitted` is never reset at the start of `fit`,
and `self.n, self.p = X.shape` executes before the centering check; so a
fit call on an already-fitted instance that fails the centering check
leaves an instance that still reports `isFitted = true` — and therefore
still accepts predict calls past the fitted-check — with `n` and `p`
already overwritten (other derived state, e.g. `beta_opt`, not yet). -/
theorem fit_not_atomic (eh : ErrMode) (s : State) (nX nY p : ℕ)
    (X : Fin nX → Fin p → Option ℝ) (y : Fin nY → Option ℝ)
    (o1 : CovOut p) (o2 : CoefOut p) (j : Fin p)
    (hfit : s.isFitted = true) (hsh : nX = nY)
    (hcent : verifyCentering nX p X = some j) :
    (fit eh s nX nY p X y o1 o2).2 = some (FitError.notCentered j.val) ∧
    (fit eh s nX nY p X y o1 o2).1.isFitted = true ∧
    (fit eh s nX nY p X y o1 o2).1.n = some nX ∧
    (fit eh s nX nY p X y o1 o2).1.p = some p ∧
    (fit eh s nX nY p X y o1 o2).1.beta_opt = s.beta_opt ∧
    ∀ (m pX : ℕ) (Xnew : Fin m → Fin pX → Option ℝ),
      predict (fit eh s nX nY p X y o1 o2).1 m pX Xnew ≠
        Except.error PredictError.notFitted := by
  have hrun : fit eh s nX nY p X y o1 o2 =
      ({ s with n := some nX, p := some p },
        some (FitError.notCentered j.val)) := by
    unfold fit
    rw [dif_pos hsh, hcent]
  rw [hrun]
  exact ⟨rfl, hfit, rfl, rfl, rfl,
    fun m pX Xnew => predict_ne_notFitted _ m pX Xnew hfit⟩

/-- Witness for C10: refitting the fitted instance `fittedS` on the
non-centered `X1` raises the centering error but leaves `isFitted = true`,
overwrites `n` and `p`, keeps the old coefficients, and predict still
passes its fitted-check. -/
theorem fit_not_atomic_witness :
    (fit ErrMode.propagate fittedS 1 1 1 X1 ![some 0]
        ⟨1, Matrix.isHermitian_one, SolveStatus.optimal⟩
        ⟨fun _ => 0, SolveStatus.optimal⟩).2 =
      some (FitError.notCentered 0) ∧
    (fit ErrMode.propagate fittedS 1 1 1 X1 ![some 0]
        ⟨1, Matrix.isHermitian_one, SolveStatus.optimal⟩
        ⟨fun _ => 0, SolveStatus.optimal⟩).1.isFitted = true ∧
    (fit ErrMode.propagate fittedS 1 1 1 X1 ![some 0]
        ⟨1, Matrix.isHermitian_one, SolveStatus.optimal⟩
        ⟨fun _ => 0, SolveStatus.optimal⟩).1.n = some 1 ∧
    (fit ErrMode.propagate fittedS 1 1 1 X1 ![some 0]
        ⟨1, Matrix.isHermitian_one, SolveStatus.optimal⟩
        ⟨fun _ => 0, SolveStatus.optimal⟩).1.p = some 1 ∧
    (fit ErrMode.propagate fittedS 1 1 1 X1 ![some 0]
        ⟨1, Matrix.isHermitian_one, SolveStatus.optimal⟩
        ⟨fun _ => 0, SolveStatus.optimal⟩).1.beta_opt = fittedS.beta_opt ∧
    ∀ (m pX : ℕ) (Xnew : Fin m → Fin pX → Option ℝ),
      predict (fit ErrMode.propagate fittedS 1 1 1 X1 ![some 0]
        ⟨1, Matrix.isHermitian_one, SolveStatus.optimal⟩
        ⟨fun _ => 0, SolveStatus.optimal⟩).1 m pX Xnew ≠
        Except.error PredictError.notFitted :=
  fit_not_atomic ErrMode.propagate fittedS 1 1 1 X1 ![some 0]
    ⟨1, Matrix.isHermitian_one, SolveStatus.optimal⟩
    ⟨fun _ => 0, SolveStatus.optimal⟩ 0 rfl rfl cent_X1

theorem fit_success_parts (eh : ErrMode) (s : State) (nX nY p : ℕ)
    (X : Fin nX → Fin p → Option ℝ) (y : Fin nY → Option ℝ)
    (o1 : CovOut p) (o2 : CoefOut p) (h : nX = nY)
    (hc : verifyCentering nX p X = none) :
    (fit eh s nX nY p X y o1 o2).2 = none ∧
    (fit eh s nX nY p X y o1 o2).1.isFitted = true ∧
    (fit eh s nX nY p X y o1 o2).1.beta_opt = some ⟨p, o2.value⟩ := by
  unfold fit
  rw [dif_pos h, hc]
  exact ⟨rfl, rfl, rfl⟩

/-- **C3** (corrected): neither solve's reported status is ever inspected
by `fit` — `prob.status` is only printed in verbose mode — so the entire
result of `fit` (state and error alike) is unchanged under arbitrary
changes of both statuses, whatever the leniency flag.  A non-optimal
status does not make `fit` fail: see the counterexample. -/
theorem fit_ignores_status (eh : ErrMode) (s : State) (nX nY p : ℕ)
    (X : Fin nX → Fin p → Option ℝ) (y : Fin nY → Option ℝ)
    (V : Matrix (Fin p) (Fin p) ℝ) (hV : V.IsHermitian) (w : Fin p → ℝ)
    (σ1 σ1' σ2 σ2' : SolveStatus) :
    fit eh s nX nY p X y ⟨V, hV, σ1⟩ ⟨w, σ2⟩ =
      fit eh s nX nY p X y ⟨V, hV, σ1'⟩ ⟨w, σ2'⟩ := rfl

/-- Witness for C3's corrected statement at a concrete run. -/
theorem fit_ignores_status_witness :
    fit ErrMode.propagate (init 1 1 true false) 2 2 1 X2 y2
        ⟨1, Matrix.isHermitian_one, SolveStatus.inaccurate⟩
        ⟨fun _ => 0, SolveStatus.infeasible⟩ =
      fit ErrMode.propagate (init 1 1 true false) 2 2 1 X2 y2
        ⟨1, Matrix.isHermitian_one, SolveStatus.optimal⟩
        ⟨fun _ => 0, SolveStatus.optimal⟩ :=
  fit_ignores_status ErrMode.propagate (init 1 1 true false) 2 2 1 X2 y2 1
    Matrix.isHermitian_one (fun _ => 0) SolveStatus.inaccurate
    SolveStatus.optimal SolveStatus.infeasible SolveStatus.optimal

/-- **C3 counterexample**: with the leniency flag at its default and both
solves reporting non-optimal statuses (inaccurate covariance solve,
infeasible coefficient solve), `fit` completes on valid input: no failure
is reported, the instance ends fitted, and the solver's output is adopted
as `beta_opt`. -/
theorem fit_nonoptimal_status_cex :
    (fit ErrMode.propagate (init 1 1 true false) 2 2 1 X2 y2
        ⟨1, Matrix.isHermitian_one, SolveStatus.inaccurate⟩
        ⟨fun _ => 1, SolveStatus.infeasible⟩).2 = none ∧
    (fit ErrMode.propagate (init 1 1 true false) 2 2 1 X2 y2
        ⟨1, Matrix.isHermitian_one, SolveStatus.inaccurate⟩
        ⟨fun _ => 1, SolveStatus.infeasible⟩).1.isFitted = true ∧
    (fit ErrMode.propagate (init 1 1 true false) 2 2 1 X2 y2
        ⟨1, Matrix.isHermitian_one, SolveStatus.inaccurate⟩
        ⟨fun _ => 1, SolveStatus.infeasible⟩).1.beta_opt =
      some ⟨1, fun _ => 1⟩ :=
  fit_success_parts ErrMode.propagate (init 1 1 true false) 2 2 1 X2 y2
    ⟨1, Matrix.isHermitian_one, SolveStatus.inaccurate⟩
    ⟨fun _ => 1, SolveStatus.infeasible⟩ rfl cent_X2

/-- **C8** (corrected): `fit` performs no check on the values of `y` — the
shape assertions never read entries — so its error outcome is identical
for any two label vectors of the same length, NaN entries included; a
missing label is never rejected (see counterexample; the NaN instead
propagates into `rho_pair`, cf. C5's counterexample). -/
theorem fit_error_independent_of_y (eh : ErrMode) (s : State) (nX nY p : ℕ)
    (X : Fin nX → Fin p → Option ℝ) (y1 y2 : Fin nY → Option ℝ)
    (o1 : CovOut p) (o2 : CoefOut p) :
    (fit eh s nX nY p X y1 o1 o2).2 = (fit eh s nX nY p X y2 o1 o2).2 := by
  unfold fit
  by_cases h : nX = nY
  · rw [dif_pos h, dif_pos h]
    cases hc : verifyCentering nX p X <;> rfl
  · rw [dif_neg h, dif_neg h]

/-- **C8 counterexample**: `yNaN` has a missing first label, yet `fit` on
`(X2, yNaN)` completes without raising any error and ends fitted: no
precondition-violation is reported for NaN labels. -/
theorem fit_nan_label_cex :
    yNaN 0 = none ∧
    (fit ErrMode.propagate (init 1 1 true false) 2 2 1 X2 yNaN
        ⟨1, Matrix.isHermitian_one, SolveStatus.optimal⟩
        ⟨fun _ => 0, SolveStatus.optimal⟩).2 = none ∧
    (fit ErrMode.propagate (init 1 1 true false) 2 2 1 X2 yNaN
        ⟨1, Matrix.isHermitian_one, SolveStatus.optimal⟩
        ⟨fun _ => 0, SolveStatus.optimal⟩).1.isFitted = true := by
  obtain ⟨h1, h2, -⟩ := fit_success_parts ErrMode.propagate
    (init 1 1 true false) 2 2 1 X2 yNaN
    ⟨1, Matrix.isHermitian_one, SolveStatus.optimal⟩
    ⟨fun _ => 0, SolveStatus.optimal⟩ rfl cent_X2
  exact ⟨rfl, h1, h2⟩

end HMLasso

end
